import Mathlib

/-!
# Verification of the myCobot calibration core (xtl_lerobot)

Shallow embedding of `lerobot/common/robot_devices/motors/mycobot.py` and
`lerobot/common/robot_devices/robots/mycobot_calibration.py`.

Positions are modelled as rationals (degrees).  The underlying transport
(`pymycobot.MyCobot280`) is modelled by a behaviour record (`Transport`),
and the physical plant seen through per-joint reads/writes by explicit
state-passing functions.  Exceptions become explicit error values; a Python
method that mutates `self` and may raise is modelled as a function returning
the final adapter state together with an optional error.
-/

/-- Errors surfaced by the adapter: connection-state errors, import failure,
hardware/transport errors re-raised after logging, and a missing dictionary
key (Python `KeyError`). -/
inductive Err where
  | notConnected
  | alreadyConnected
  | importFailed
  | hardware
  | keyError
  deriving DecidableEq, Repr

/-- Primitive operations issued to the `MyCobot280` transport. -/
inductive TransportOp where
  | powerOn
  | powerOff
  deriving DecidableEq, Repr

/-- Behaviour of the underlying `pymycobot` transport: whether the
library was importable, and whether `power_on` / `power_off` raise. -/
structure Transport where
  available : Bool
  powerOnFails : Bool
  powerOffFails : Bool
  deriving DecidableEq, Repr

/-- The adapter state of `MyCobotMotorsBus`: the mock flag, the `_connected`
flag, and the motor table mapping motor names to 1-based bus ids
(the model drops the model-name string, which the code never reads). -/
structure Adapter where
  mock : Bool
  connected : Bool
  motors : List (String × Nat)
  deriving DecidableEq, Repr

/-- `MyCobotMotorsBus.connect` (mycobot.py lines 69-92).  Raising leaves the
state as mutated so far, so the result is the final adapter state paired with
the optional error. -/
def connect (t : Transport) (a : Adapter) : Adapter × Option Err :=
  if a.connected then (a, some .alreadyConnected)
  else if a.mock then ({ a with connected := true }, none)
  else if !t.available then (a, some .importFailed)
  else if t.powerOnFails then (a, some .hardware)
  else ({ a with connected := true }, none)

/-- `MyCobotMotorsBus.disconnect` (mycobot.py lines 94-110).  In the non-mock
branch the code runs `self._mycobot.power_off()` first; when that raises, the
subsequent `self._connected = False` is never executed and the exception is
re-raised. -/
def disconnect (t : Transport) (a : Adapter) : Adapter × Option Err :=
  if !a.connected then (a, some .notConnected)
  else if a.mock then ({ a with connected := false }, none)
  else if t.powerOffFails then (a, some .hardware)
  else ({ a with connected := false }, none)

set_option linter.unusedVariables false in
/-- `MyCobotMotorsBus.write_torque_enable` (mycobot.py lines 235-258):
after the connectivity check the body ignores `motor_names` entirely and
powers the whole bus on or off.  Result: optional error and the list of
transport operations issued. -/
def write_torque_enable (t : Transport) (a : Adapter) (enable : Bool)
    (motor_names : Option (List String)) : Option Err × List TransportOp :=
  if !a.connected then (some .notConnected, [])
  else if a.mock then (none, [])
  else if enable then
    if t.powerOnFails then (some .hardware, []) else (none, [.powerOn])
  else
    if t.powerOffFails then (some .hardware, []) else (none, [.powerOff])

/-- Python dictionary lookup `self._motors[motor_name]`, returning the
1-based motor id. -/
def lookupMotor (motors : List (String × Nat)) (name : String) : Option Nat :=
  (motors.find? (fun p => p.1 = name)).map (fun p => p.2)

/-- The update loop of `write_goal_position` (mycobot.py lines 224-227):
for each addressed motor, `new_angles[motor_id - 1] = position`.  A name
absent from the motor table raises `KeyError`. -/
def applyPositions (motors : List (String × Nat)) :
    List (String × ℚ) → List ℚ → Except Err (List ℚ)
  | [], angles => .ok angles
  | (name, pos) :: rest, angles =>
    match lookupMotor motors name with
    | none => .error .keyError
    | some id => applyPositions motors rest (angles.set (id - 1) pos)

/-- `MyCobotMotorsBus.write_goal_position` (mycobot.py lines 204-233):
reads the full current angle vector, overwrites the addressed entries
(1-based ids, 0-based vector), then sends all angles at once at speed 50.
Result: `none` if no command was sent (mock), otherwise the single sent
vector paired with its speed. -/
def write_goal_position (a : Adapter) (current : List ℚ)
    (positions : List (String × ℚ)) : Except Err (Option (List ℚ × Nat)) :=
  if !a.connected then .error .notConnected
  else if a.mock then .ok none
  else
    match applyPositions a.motors positions current with
    | .error e => .error e
    | .ok new_angles => .ok (some (new_angles, 50))

/-- The `JOINT_LIMITS` table of mycobot_calibration.py (lines 31-38), as a
function of the 1-based joint number, with the `.get(..., (-170, 170))`
default for numbers outside 1..6. -/
def JOINT_LIMITS (joint_number : Nat) : ℚ × ℚ :=
  if joint_number = 6 then (-175, 175) else (-170, 170)

/-- The probing loop of `find_joint_min_position` (mycobot_calibration.py
lines 162-182), made terminating by a fuel argument (the Python loop can
diverge under an adversarial bus).  The plant is given by `send` (command a
goal position for this joint) and `read` (observe the joint, possibly
advancing plant state).  Returns the discovered limit, the final plant
state, the list of commanded positions and the list of position readings,
or `none` when fuel runs out mid-loop. -/
def findMinLoop {σ : Type} (send : σ → ℚ → σ) (read : σ → ℚ × σ)
    (target : ℚ) : Nat → ℚ → σ → Option (ℚ × σ × List ℚ × List ℚ)
  | 0, cur, s => if target < cur then none else some (cur, s, [], [])
  | fuel + 1, cur, s =>
    if target < cur then
      let next := max (cur - 5) target
      let s1 := send s next
      let rd := read s1
      if |rd.1 - cur| < 1/2 then some (rd.1, rd.2, [next], [rd.1])
      else
        match findMinLoop send read target fuel rd.1 rd.2 with
        | none => none
        | some (r, s2, cmds, reads) => some (r, s2, next :: cmds, rd.1 :: reads)
    else some (cur, s, [], [])

/-- The probing loop of `find_joint_max_position` (mycobot_calibration.py
lines 209-229), dual to `findMinLoop`. -/
def findMaxLoop {σ : Type} (send : σ → ℚ → σ) (read : σ → ℚ × σ)
    (target : ℚ) : Nat → ℚ → σ → Option (ℚ × σ × List ℚ × List ℚ)
  | 0, cur, s => if cur < target then none else some (cur, s, [], [])
  | fuel + 1, cur, s =>
    if cur < target then
      let next := min (cur + 5) target
      let s1 := send s next
      let rd := read s1
      if |rd.1 - cur| < 1/2 then some (rd.1, rd.2, [next], [rd.1])
      else
        match findMaxLoop send read target fuel rd.1 rd.2 with
        | none => none
        | some (r, s2, cmds, reads) => some (r, s2, next :: cmds, rd.1 :: reads)
    else some (cur, s, [], [])

/-- `find_joint_min_position` (mycobot_calibration.py lines 137-182):
target bound is the nominal lower limit minus 20, the starting position is
read live, then the probing loop runs. -/
def find_joint_min_position {σ : Type} (send : σ → ℚ → σ) (read : σ → ℚ × σ)
    (joint_number : Nat) (fuel : Nat) (s : σ) :
    Option (ℚ × σ × List ℚ × List ℚ) :=
  let target := (JOINT_LIMITS joint_number).1 - 20
  let rd := read s
  findMinLoop send read target fuel rd.1 rd.2

/-- `find_joint_max_position` (mycobot_calibration.py lines 184-229):
target bound is the nominal upper limit plus 20. -/
def find_joint_max_position {σ : Type} (send : σ → ℚ → σ) (read : σ → ℚ × σ)
    (joint_number : Nat) (fuel : Nat) (s : σ) :
    Option (ℚ × σ × List ℚ × List ℚ) :=
  let target := (JOINT_LIMITS joint_number).2 + 20
  let rd := read s
  findMaxLoop send read target fuel rd.1 rd.2

/-- An ideal plant whose position is exactly the last commanded goal:
state is the joint position, a command moves the joint there, a read
reports it. -/
def psend : ℚ → ℚ → ℚ := fun _ p => p

/-- Reading the ideal plant reports the state and leaves it unchanged. -/
def pread : ℚ → ℚ × ℚ := fun s => (s, s)

/-- The reading that precedes the `k`-th command of a probing loop: the
initial live reading `cur0` for `k = 0`, otherwise the `(k-1)`-th loop
reading. -/
def prevAt (cur0 : ℚ) (reads : List ℚ) : Nat → ℚ
  | 0 => cur0
  | k + 1 => reads.getD k 0

/-- Trace-level specification of one run of the minimum-direction probing
loop started at reading `cur0` with target bound `target`: commands and
readings alternate and have equal count; the `k`-th command is 5 below the
previous reading, clamped at the bound (hence never below it); the loop
never continues past a reading whose displacement from the previous one is
below the 0.5 threshold; the returned value is the last reading (the start
reading if no command was issued); and the loop only stops on a
sub-threshold displacement or on reaching the bound. -/
def minSearchSpec (target cur0 : ℚ) (cmds reads : List ℚ) (r : ℚ) : Prop :=
  cmds.length = reads.length ∧
  (∀ k, k < cmds.length → cmds.getD k 0 = max (prevAt cur0 reads k - 5) target) ∧
  (∀ k, k < cmds.length → target ≤ cmds.getD k 0) ∧
  (∀ k, k + 1 < reads.length → 1/2 ≤ |reads.getD k 0 - prevAt cur0 reads k|) ∧
  r = reads.getLastD cur0 ∧
  (reads ≠ [] →
    |reads.getLastD cur0 - prevAt cur0 reads (reads.length - 1)| < 1/2 ∨
    reads.getLastD cur0 ≤ target) ∧
  (reads = [] → ¬ target < cur0)

/-- Trace-level specification of the maximum-direction probing loop, dual
to `minSearchSpec`. -/
def maxSearchSpec (target cur0 : ℚ) (cmds reads : List ℚ) (r : ℚ) : Prop :=
  cmds.length = reads.length ∧
  (∀ k, k < cmds.length → cmds.getD k 0 = min (prevAt cur0 reads k + 5) target) ∧
  (∀ k, k < cmds.length → cmds.getD k 0 ≤ target) ∧
  (∀ k, k + 1 < reads.length → 1/2 ≤ |reads.getD k 0 - prevAt cur0 reads k|) ∧
  r = reads.getLastD cur0 ∧
  (reads ≠ [] →
    |reads.getLastD cur0 - prevAt cur0 reads (reads.length - 1)| < 1/2 ∨
    target ≤ reads.getLastD cur0) ∧
  (reads = [] → ¬ cur0 < target)

/-- A calibration-record entry of the manual protocol: either a joint entry
(zero-pose reading, rotated-pose reading, offset, direction flag) or the
gripper marker `{"calibrated": True}`. -/
inductive ManualEntry where
  | joint (zero_pos rotated_pos offset : ℚ) (direction_inverted : Bool)
  | gripperMarker
  deriving DecidableEq, Repr

/-- Bus operations observable in the manual-calibration protocol, in the
order the code issues them (operator prompts are the blocking `input()`
calls). -/
inductive BusOp where
  | torqueEnable (enable : Bool)
  | led (r g b : Nat)
  | readPositions
  | waitConfirm
  | writeGoal (positions : List (String × ℚ))
  | setGripper (close : Bool)
  deriving DecidableEq, Repr

/-- `run_arm_manual_calibration` (mycobot_calibration.py lines 256-348).
The two operator-posed snapshots are modelled as given reading functions
`zero_read` and `rotated_read` (the values `arm.read_present_position()`
returns at the two confirmation points).  Returns the calibration record
together with the sequence of bus operations issued, or `none` when the
robot/arm type guard raises `NotImplementedError`. -/
def run_arm_manual_calibration (motor_names : List String)
    (zero_read rotated_read : String → ℚ) (robot_type arm_type : String) :
    Option (List (String × ManualEntry) × List BusOp) :=
  if robot_type = "mycobot" ∧ arm_type = "280" then
    let jointCalib := (motor_names.filter (fun n => n ≠ "gripper")).map
      (fun n => (n, ManualEntry.joint (zero_read n) (rotated_read n)
        (zero_read n) (!decide (rotated_read n - zero_read n > 0))))
    let hasGripper := motor_names.contains "gripper"
    let calib :=
      if hasGripper then jointCalib ++ [("gripper", ManualEntry.gripperMarker)]
      else jointCalib
    let trace :=
      [BusOp.torqueEnable false, BusOp.waitConfirm, BusOp.readPositions,
       BusOp.waitConfirm, BusOp.readPositions] ++
      (if hasGripper then [BusOp.waitConfirm, BusOp.waitConfirm] else []) ++
      [BusOp.torqueEnable true, BusOp.led 0 255 0]
    some (calib, trace)
  else none

/-- Whether a bus operation commands motion (a goal-position write or a
gripper drive). -/
def isMotionOp : BusOp → Bool
  | .writeGoal _ => true
  | .setGripper _ => true
  | _ => false

/-- A calibration-record entry of the automatic protocol
(mycobot_calibration.py lines 102-108). -/
structure AutoEntry where
  initial_pos : ℚ
  min_pos : ℚ
  max_pos : ℚ
  center_pos : ℚ
  range : ℚ
  deriving DecidableEq, Repr

/-- The physical plant seen through the adapter during automatic
calibration: per-joint observation (which may advance plant state, e.g.
time passing) and command, the whole-bus power and LED outputs, the
gripper drive, and the single combined goal write keyed by motor name. -/
structure Plant (σ : Type) where
  readJ : σ → Nat → ℚ × σ
  sendJ : σ → Nat → ℚ → σ
  power : σ → Bool → σ
  led : σ → Nat → Nat → Nat → σ
  gripper : σ → Bool → σ
  sendAll : σ → List (String × ℚ) → σ

/-- The per-joint body of the auto-calibration loop (mycobot_calibration.py
lines 78-112): read the initial position, search the minimum, switch the
LED to green, search the maximum, compute center and range, command the
joint to its center. -/
def autoCalibJoint {σ : Type} (P : Plant σ) (id : Nat) (fuel : Nat) (s : σ) :
    Option (AutoEntry × σ) :=
  let rd0 := P.readJ s id
  match find_joint_min_position (fun s p => P.sendJ s id p)
      (fun s => P.readJ s id) id fuel rd0.2 with
  | none => none
  | some (min_pos, s2, _, _) =>
    let s2g := P.led s2 0 255 0
    match find_joint_max_position (fun s p => P.sendJ s id p)
        (fun s => P.readJ s id) id fuel s2g with
    | none => none
    | some (max_pos, s3, _, _) =>
      let center_pos := (min_pos + max_pos) / 2
      let s4 := P.sendJ s3 id center_pos
      some ({ initial_pos := rd0.1, min_pos := min_pos, max_pos := max_pos,
              center_pos := center_pos, range := max_pos - min_pos }, s4)

/-- The joint iteration of `run_arm_auto_calibration` (lines 73-112):
gripper entries are skipped, every other joint is calibrated in order. -/
def autoCalibLoop {σ : Type} (P : Plant σ) (fuel : Nat) :
    List (String × Nat) → σ → Option (List (String × AutoEntry) × σ)
  | [], s => some ([], s)
  | (name, id) :: rest, s =>
    if name = "gripper" then autoCalibLoop P fuel rest s
    else
      match autoCalibJoint P id fuel s with
      | none => none
      | some (entry, s1) =>
        match autoCalibLoop P fuel rest s1 with
        | none => none
        | some (record, s2) => some ((name, entry) :: record, s2)

/-- `calibrate_gripper` (lines 231-254): a fixed open-close-open probe. -/
def calibrate_gripper {σ : Type} (P : Plant σ) (s : σ) : σ :=
  P.gripper (P.gripper (P.gripper s false) true) false

/-- `run_arm_auto_calibration` (mycobot_calibration.py lines 40-135):
power the bus on, show the blue calibration LED, calibrate every
non-gripper joint, run the gripper probe when a gripper is present, issue
one combined write moving all joints to their centers, and show the green
LED.  Result: the joint record, the gripper-calibrated marker, and the
final plant state; `none` on the type guard or on fuel exhaustion. -/
def run_arm_auto_calibration {σ : Type} (P : Plant σ)
    (motors : List (String × Nat)) (fuel : Nat) (s : σ)
    (robot_type arm_type : String) :
    Option ((List (String × AutoEntry) × Bool) × σ) :=
  if robot_type = "mycobot" ∧ arm_type = "280" then
    let s0 := P.power s true
    let s1 := P.led s0 0 0 255
    match autoCalibLoop P fuel motors s1 with
    | none => none
    | some (record, s2) =>
      let hasGripper := motors.any (fun p => p.1 = "gripper")
      let s3 := if hasGripper then calibrate_gripper P s2 else s2
      let centers := record.map (fun p => (p.1, p.2.center_pos))
      let s4 := if centers.isEmpty then s3 else P.sendAll s3 centers
      let s5 := P.led s4 0 255 0
      some ((record, hasGripper), s5)
  else none

/-- An adversarial plant used to probe the auto-calibration record: the
state counts reads, and the scripted readings make the minimum search
converge at +100 and the subsequent maximum search converge at -100. -/
def advPlant : Plant Nat where
  readJ := fun s _ =>
    (if s = 1 ∨ s = 2 then (100 : ℚ) else if s = 3 ∨ s = 4 then -100 else 0,
     s + 1)
  sendJ := fun s _ _ => s
  power := fun s _ => s
  led := fun s _ _ _ => s
  gripper := fun s _ => s
  sendAll := fun s _ => s

/-! ## Theorems -/

/-- A successful `connect` leaves the adapter marked connected. -/
theorem connect_ok_connected (t : Transport) (a a1 : Adapter)
    (h : connect t a = (a1, none)) : a1.connected = true := by
  unfold connect at h
  split at h
  · simp at h
  · split at h
    · cases h; rfl
    · split at h
      · simp at h
      · split at h
        · simp at h
        · cases h; rfl

/-- C7: `connect()` opens the transport exactly once: a second call while a
session is open fails with AlreadyConnected and does not alter the open
state established by the first call. -/
theorem C7_connect_twice (t : Transport) (a a1 : Adapter)
    (h : connect t a = (a1, none)) :
    connect t a1 = (a1, some .alreadyConnected) := by
  have hc : a1.connected = true := connect_ok_connected t a a1 h
  unfold connect
  rw [if_pos hc]

/-- Witness for C7 at a concrete mock adapter. -/
theorem C7_connect_twice_witness :
    connect ⟨true, false, false⟩ ⟨true, true, []⟩
      = (⟨true, true, []⟩, some .alreadyConnected) :=
  C7_connect_twice ⟨true, false, false⟩ ⟨true, false, []⟩ ⟨true, true, []⟩ rfl

/-- C2 counterexample: on a connected non-mock adapter whose transport's
`power_off` raises, `disconnect` propagates the error and the `_connected`
flag stays `true` — the state does not transition to closed. -/
theorem C2_disconnect_counterexample :
    (disconnect ⟨true, false, true⟩ ⟨false, true, []⟩).2 = some .hardware ∧
    (disconnect ⟨true, false, true⟩ ⟨false, true, []⟩).1.connected = true :=
  ⟨rfl, rfl⟩

/-- C2 (amended): `disconnect()` fails with NotConnected when no session is
open; otherwise it transitions the connected state to closed when the
power-off succeeds or in mock mode, but when the underlying transport's
power-off raises, the error propagates and the connected state remains
open. -/
theorem C2_disconnect_amended (t : Transport) (a : Adapter) :
    (a.connected = false → disconnect t a = (a, some .notConnected)) ∧
    (a.connected = true → a.mock = true →
      disconnect t a = ({ a with connected := false }, none)) ∧
    (a.connected = true → a.mock = false → t.powerOffFails = false →
      disconnect t a = ({ a with connected := false }, none)) ∧
    (a.connected = true → a.mock = false → t.powerOffFails = true →
      disconnect t a = (a, some .hardware) ∧
      (disconnect t a).1.connected = true) := by
  refine ⟨?_, ?_, ?_, ?_⟩ <;> intros <;> simp [disconnect, *]

/-- Witness for C2's amended theorem at a concrete failing transport. -/
theorem C2_disconnect_amended_witness :
    disconnect ⟨true, false, true⟩ ⟨false, true, []⟩
        = (⟨false, true, []⟩, some .hardware) ∧
    (disconnect ⟨true, false, true⟩ ⟨false, true, []⟩).1.connected = true :=
  (C2_disconnect_amended ⟨true, false, true⟩ ⟨false, true, []⟩).2.2.2 rfl rfl rfl

/-- C10: `write_torque_enable` performs the same whole-bus power-on or
power-off for every value of `motor_names`; on a connected non-mock
adapter with a healthy transport it issues exactly the corresponding
whole-bus transport operation, so torque cannot be switched for a subset
of motors. -/
theorem C10_torque_whole_bus (t : Transport) (a : Adapter) (enable : Bool)
    (ns ns' : Option (List String)) :
    write_torque_enable t a enable ns = write_torque_enable t a enable ns' ∧
    (a.connected = true → a.mock = false →
      (enable = true → t.powerOnFails = false →
        write_torque_enable t a enable ns = (none, [.powerOn])) ∧
      (enable = false → t.powerOffFails = false →
        write_torque_enable t a enable ns = (none, [.powerOff]))) := by
  refine ⟨rfl, ?_⟩
  intro hc hm
  constructor <;> intros <;> simp [write_torque_enable, *]

/-- Witness for C10 at a concrete adapter: a singleton `motor_names` and
`none` give the same whole-bus power-on. -/
theorem C10_torque_whole_bus_witness :
    write_torque_enable ⟨true, false, false⟩ ⟨false, true, []⟩ true
        (some ["joint1"])
      = write_torque_enable ⟨true, false, false⟩ ⟨false, true, []⟩ true none ∧
    write_torque_enable ⟨true, false, false⟩ ⟨false, true, []⟩ true
        (some ["joint1"])
      = (none, [.powerOn]) :=
  ⟨(C10_torque_whole_bus ⟨true, false, false⟩ ⟨false, true, []⟩ true
      (some ["joint1"]) none).1,
   ((C10_torque_whole_bus ⟨true, false, false⟩ ⟨false, true, []⟩ true
      (some ["joint1"]) none).2 rfl rfl).1 rfl rfl⟩

/-- A motor id found in a table validated at construction time (ids 1..6)
is at least 1. -/
theorem lookupMotor_pos (motors : List (String × Nat))
    (hv : ∀ p ∈ motors, 1 ≤ p.2) (name : String) (id : Nat)
    (h : lookupMotor motors name = some id) : 1 ≤ id := by
  unfold lookupMotor at h
  obtain ⟨p, hp, hpe⟩ := Option.map_eq_some'.mp h
  exact hpe ▸ hv p (List.mem_of_find?_eq_some hp)

/-- The update loop of `write_goal_position` succeeds when every addressed
name resolves, keeps the vector length, and leaves every entry whose
0-based index is addressed by no motor id unchanged. -/
theorem applyPositions_spec (motors : List (String × Nat))
    (hv : ∀ p ∈ motors, 1 ≤ p.2) (positions : List (String × ℚ)) :
    ∀ current : List ℚ,
      (∀ q ∈ positions, (lookupMotor motors q.1).isSome) →
      ∃ sent, applyPositions motors positions current = .ok sent ∧
        sent.length = current.length ∧
        ∀ i : Nat,
          (∀ q ∈ positions, ∀ id, lookupMotor motors q.1 = some id →
            id ≠ i + 1) →
          sent.getD i 0 = current.getD i 0 := by
  induction positions with
  | nil =>
    intro current _
    exact ⟨current, rfl, rfl, fun _ _ => rfl⟩
  | cons q rest ih =>
    intro current h
    obtain ⟨name, pos⟩ := q
    have hq : (lookupMotor motors name).isSome := h _ (List.mem_cons_self _ _)
    obtain ⟨id, hid⟩ := Option.isSome_iff_exists.mp hq
    have hrest : ∀ q ∈ rest, (lookupMotor motors q.1).isSome :=
      fun q hq' => h q (List.mem_cons_of_mem _ hq')
    obtain ⟨sent, hs, hlen, hout⟩ := ih (current.set (id - 1) pos) hrest
    refine ⟨sent, ?_, ?_, ?_⟩
    · simp only [applyPositions, hid]
      exact hs
    · rw [hlen, List.length_set]
    · intro i hi
      have h1 : sent.getD i 0 = (current.set (id - 1) pos).getD i 0 :=
        hout i (fun q hq' id' hid' => hi q (List.mem_cons_of_mem _ hq') id' hid')
      have hne : id ≠ i + 1 := hi (name, pos) (List.mem_cons_self _ _) id hid
      have hid1 : 1 ≤ id := lookupMotor_pos motors hv name id hid
      have hne' : id - 1 ≠ i := by omega
      rw [h1, List.getD_eq_getElem?_getD, List.getD_eq_getElem?_getD,
        List.getElem?_set_ne hne']

/-- C4: on a connected non-mock bus, `write_goal_position` issues exactly
one combined command at speed 50 whose vector has the same length as the
current read vector, and every entry addressed by no motor in the map
(1-based ids against 0-based indices) keeps its current read value. -/
theorem C4_partial_write (a : Adapter) (current : List ℚ)
    (positions : List (String × ℚ))
    (hconn : a.connected = true) (hmock : a.mock = false)
    (hv : ∀ p ∈ a.motors, 1 ≤ p.2)
    (hnames : ∀ q ∈ positions, (lookupMotor a.motors q.1).isSome) :
    ∃ sent, write_goal_position a current positions = .ok (some (sent, 50)) ∧
      sent.length = current.length ∧
      ∀ i : Nat,
        (∀ q ∈ positions, ∀ id, lookupMotor a.motors q.1 = some id →
          id ≠ i + 1) →
        sent.getD i 0 = current.getD i 0 := by
  obtain ⟨sent, hs, hlen, hout⟩ :=
    applyPositions_spec a.motors hv positions current hnames
  refine ⟨sent, ?_, hlen, hout⟩
  simp [write_goal_position, hconn, hmock, hs]

/-- Witness for C4: a two-joint bus, current vector `[3, 4]`, a write
addressing only `j1`; the un-addressed entry of index 1 keeps value 4. -/
theorem C4_partial_write_witness :
    ∃ sent,
      write_goal_position ⟨false, true, [("j1", 1), ("j2", 2)]⟩ [3, 4]
          [("j1", 10)] = .ok (some (sent, 50)) ∧
      sent.length = ([3, 4] : List ℚ).length ∧
      ∀ i : Nat,
        (∀ q ∈ [(("j1" : String), (10 : ℚ))], ∀ id,
          lookupMotor [("j1", 1), ("j2", 2)] q.1 = some id → id ≠ i + 1) →
        sent.getD i 0 = ([3, 4] : List ℚ).getD i 0 :=
  C4_partial_write ⟨false, true, [("j1", 1), ("j2", 2)]⟩ [3, 4] [("j1", 10)]
    rfl rfl (by decide) (by decide)


/-- C5: in manual calibration every non-gripper joint entry records
offset = reference-pose reading and
direction_inverted = NOT(rotated − reference > 0); concretely, reference 0
with rotated +85 gives flag False, and rotated −85 gives flag True. -/
theorem C5_manual_offset_direction :
    (∀ (motor_names : List String) (zero_read rotated_read : String → ℚ)
        (rt at' : String) (calib : List (String × ManualEntry))
        (trace : List BusOp),
      run_arm_manual_calibration motor_names zero_read rotated_read rt at'
          = some (calib, trace) →
      ∀ n zp rp off inv, (n, ManualEntry.joint zp rp off inv) ∈ calib →
        zp = zero_read n ∧ rp = rotated_read n ∧ off = zero_read n ∧
        inv = !decide (rotated_read n - zero_read n > 0)) ∧
    run_arm_manual_calibration ["joint1"] (fun _ => 0) (fun _ => 85)
        "mycobot" "280"
      = some ([("joint1", ManualEntry.joint 0 85 0 false)],
          [BusOp.torqueEnable false, BusOp.waitConfirm, BusOp.readPositions,
           BusOp.waitConfirm, BusOp.readPositions, BusOp.torqueEnable true,
           BusOp.led 0 255 0]) ∧
    run_arm_manual_calibration ["joint1"] (fun _ => 0) (fun _ => -85)
        "mycobot" "280"
      = some ([("joint1", ManualEntry.joint 0 (-85) 0 true)],
          [BusOp.torqueEnable false, BusOp.waitConfirm, BusOp.readPositions,
           BusOp.waitConfirm, BusOp.readPositions, BusOp.torqueEnable true,
           BusOp.led 0 255 0]) := by
  refine ⟨?_, by with_unfolding_all rfl, by with_unfolding_all rfl⟩
  intro names z r rt at' calib trace h n zp rp off inv hmem
  rw [run_arm_manual_calibration] at h
  split at h
  · cases h
    by_cases hg : "gripper" ∈ names <;> simp [hg] at hmem
    all_goals
      obtain ⟨a, ⟨-, -⟩, han, h1, h2, h3, h4⟩ := hmem
      refine ⟨?_, ?_, ?_, ?_⟩
      · rw [← h1, han]
      · rw [← h2, han]
      · rw [← h3, han]
      · have hd : decide (r n - z n > 0) = decide (z n < r n) := by
          simp [gt_iff_lt, sub_pos]
        rw [hd, ← han, h4, Bool.not_not]
  · cases h

/-- Witness for C5's universal part at the concrete single-joint run with
reference reading 0 and rotated reading +85. -/
theorem C5_manual_offset_direction_witness :
    (0 : ℚ) = 0 ∧ (85 : ℚ) = 85 ∧ (0 : ℚ) = 0 ∧
      false = !decide ((85 : ℚ) - 0 > 0) :=
  C5_manual_offset_direction.1 ["joint1"] (fun _ => 0) (fun _ => 85)
    "mycobot" "280" [("joint1", ManualEntry.joint 0 85 0 false)]
    [BusOp.torqueEnable false, BusOp.waitConfirm, BusOp.readPositions,
     BusOp.waitConfirm, BusOp.readPositions, BusOp.torqueEnable true,
     BusOp.led 0 255 0]
    (by with_unfolding_all rfl) "joint1" 0 85 0 false
    (List.mem_singleton.mpr rfl)

/-- C9: the manual-calibration protocol issues no motion command: every bus
operation in its trace is a torque switch, LED set, position read, or a
blocking wait — never a goal-position write or a gripper drive. -/
theorem C9_manual_no_motion (motor_names : List String)
    (zero_read rotated_read : String → ℚ) (rt at' : String)
    (calib : List (String × ManualEntry)) (trace : List BusOp)
    (h : run_arm_manual_calibration motor_names zero_read rotated_read rt at'
        = some (calib, trace)) :
    ∀ op ∈ trace, isMotionOp op = false := by
  intro op hop
  rw [run_arm_manual_calibration] at h
  split at h
  · cases h
    simp at hop
    rcases hop with rfl | rfl | rfl | rfl | rfl | ⟨-, rfl⟩ | rfl | rfl <;> rfl
  · cases h

/-- Witness for C9 at the concrete single-joint run: the position-read
operation of its trace is not a motion command. -/
theorem C9_manual_no_motion_witness : isMotionOp BusOp.readPositions = false :=
  C9_manual_no_motion ["joint1"] (fun _ => 0) (fun _ => 85) "mycobot" "280"
    [("joint1", ManualEntry.joint 0 85 0 false)]
    [BusOp.torqueEnable false, BusOp.waitConfirm, BusOp.readPositions,
     BusOp.waitConfirm, BusOp.readPositions, BusOp.torqueEnable true,
     BusOp.led 0 255 0]
    (by with_unfolding_all rfl) BusOp.readPositions (by decide)

/-- Shifting the previous-reading function across a cons of the reading
list. -/
theorem prevAt_cons (cur0 new : ℚ) (reads : List ℚ) (k : Nat) :
    prevAt cur0 (new :: reads) (k + 1) = prevAt new reads k := by
  cases k <;> rfl

/-- Every successful run of the minimum-direction probing loop satisfies
its trace specification. -/
theorem findMinLoop_spec {σ : Type} (send : σ → ℚ → σ) (read : σ → ℚ × σ)
    (target : ℚ) :
    ∀ (fuel : Nat) (cur : ℚ) (s : σ) (r : ℚ) (s' : σ) (cmds reads : List ℚ),
      findMinLoop send read target fuel cur s = some (r, s', cmds, reads) →
      minSearchSpec target cur cmds reads r := by
  intro fuel
  induction fuel with
  | zero =>
    intro cur s r s' cmds reads h
    rw [findMinLoop] at h
    split at h
    next => cases h
    next hnl =>
      cases h
      exact ⟨rfl, fun k hk => by simp at hk, fun k hk => by simp at hk,
             fun k hk => by simp at hk, rfl, fun hne => absurd rfl hne,
             fun _ => hnl⟩
  | succ fuel ih =>
    intro cur s r s' cmds reads h
    simp only [findMinLoop] at h
    split at h
    next hlt =>
      set nx := max (cur - 5) target with hnx
      set rd := read (send s nx) with hrdef
      split at h
      next hstop =>
        cases h
        refine ⟨rfl, ?_, ?_, ?_, rfl, fun _ => Or.inl hstop,
                fun heq => absurd heq (List.cons_ne_nil _ _)⟩
        · intro k hk
          match k with
          | 0 => exact hnx
          | k + 1 => simp at hk
        · intro k hk
          match k with
          | 0 => exact hnx.symm ▸ le_max_right (cur - 5) target
          | k + 1 => simp at hk
        · intro k hk
          simp at hk
      next hnstop =>
        rcases hrec : findMinLoop send read target fuel rd.1 rd.2 with
          _ | ⟨r2, s2, cmds2, reads2⟩ <;> rw [hrec] at h
        · cases h
        · cases h
          obtain ⟨hlen, hcmd, hbound, hstep, hr, hlast, hemp⟩ :=
            ih rd.1 rd.2 r s' cmds2 reads2 hrec
          refine ⟨?_, ?_, ?_, ?_, ?_, ?_,
                  fun heq => absurd heq (List.cons_ne_nil _ _)⟩
          · simp [hlen]
          · intro k hk
            match k with
            | 0 => exact hnx
            | k + 1 =>
              rw [prevAt_cons]
              exact hcmd k (by simpa using hk)
          · intro k hk
            match k with
            | 0 => exact hnx.symm ▸ le_max_right (cur - 5) target
            | k + 1 => exact hbound k (by simpa using hk)
          · intro k hk
            match k with
            | 0 => exact le_of_not_lt hnstop
            | k + 1 =>
              rw [prevAt_cons]
              exact hstep k (by simpa using hk)
          · rw [List.getLastD_cons]
            exact hr
          · intro _
            rw [List.getLastD_cons]
            by_cases hre : reads2 = []
            · subst hre
              exact Or.inr (le_of_not_lt (hemp rfl))
            · have hpa : prevAt cur (rd.1 :: reads2)
                  ((rd.1 :: reads2).length - 1)
                  = prevAt rd.1 reads2 (reads2.length - 1) := by
                have hl : (rd.1 :: reads2).length - 1
                    = (reads2.length - 1) + 1 := by
                  have : 0 < reads2.length := List.length_pos.mpr hre
                  simp
                  omega
                rw [hl, prevAt_cons]
              rw [hpa]
              exact hlast hre
    next hnl =>
      cases h
      exact ⟨rfl, fun k hk => by simp at hk, fun k hk => by simp at hk,
             fun k hk => by simp at hk, rfl, fun hne => absurd rfl hne,
             fun _ => hnl⟩

/-- Every successful run of the maximum-direction probing loop satisfies
its trace specification. -/
theorem findMaxLoop_spec {σ : Type} (send : σ → ℚ → σ) (read : σ → ℚ × σ)
    (target : ℚ) :
    ∀ (fuel : Nat) (cur : ℚ) (s : σ) (r : ℚ) (s' : σ) (cmds reads : List ℚ),
      findMaxLoop send read target fuel cur s = some (r, s', cmds, reads) →
      maxSearchSpec target cur cmds reads r := by
  intro fuel
  induction fuel with
  | zero =>
    intro cur s r s' cmds reads h
    rw [findMaxLoop] at h
    split at h
    next => cases h
    next hnl =>
      cases h
      exact ⟨rfl, fun k hk => by simp at hk, fun k hk => by simp at hk,
             fun k hk => by simp at hk, rfl, fun hne => absurd rfl hne,
             fun _ => hnl⟩
  | succ fuel ih =>
    intro cur s r s' cmds reads h
    simp only [findMaxLoop] at h
    split at h
    next hlt =>
      set nx := min (cur + 5) target with hnx
      set rd := read (send s nx) with hrdef
      split at h
      next hstop =>
        cases h
        refine ⟨rfl, ?_, ?_, ?_, rfl, fun _ => Or.inl hstop,
                fun heq => absurd heq (List.cons_ne_nil _ _)⟩
        · intro k hk
          match k with
          | 0 => exact hnx
          | k + 1 => simp at hk
        · intro k hk
          match k with
          | 0 => exact hnx.symm ▸ min_le_right (cur + 5) target
          | k + 1 => simp at hk
        · intro k hk
          simp at hk
      next hnstop =>
        rcases hrec : findMaxLoop send read target fuel rd.1 rd.2 with
          _ | ⟨r2, s2, cmds2, reads2⟩ <;> rw [hrec] at h
        · cases h
        · cases h
          obtain ⟨hlen, hcmd, hbound, hstep, hr, hlast, hemp⟩ :=
            ih rd.1 rd.2 r s' cmds2 reads2 hrec
          refine ⟨?_, ?_, ?_, ?_, ?_, ?_,
                  fun heq => absurd heq (List.cons_ne_nil _ _)⟩
          · simp [hlen]
          · intro k hk
            match k with
            | 0 => exact hnx
            | k + 1 =>
              rw [prevAt_cons]
              exact hcmd k (by simpa using hk)
          · intro k hk
            match k with
            | 0 => exact hnx.symm ▸ min_le_right (cur + 5) target
            | k + 1 => exact hbound k (by simpa using hk)
          · intro k hk
            match k with
            | 0 => exact le_of_not_lt hnstop
            | k + 1 =>
              rw [prevAt_cons]
              exact hstep k (by simpa using hk)
          · rw [List.getLastD_cons]
            exact hr
          · intro _
            rw [List.getLastD_cons]
            by_cases hre : reads2 = []
            · subst hre
              exact Or.inr (le_of_not_lt (hemp rfl))
            · have hpa : prevAt cur (rd.1 :: reads2)
                  ((rd.1 :: reads2).length - 1)
                  = prevAt rd.1 reads2 (reads2.length - 1) := by
                have hl : (rd.1 :: reads2).length - 1
                    = (reads2.length - 1) + 1 := by
                  have : 0 < reads2.length := List.length_pos.mpr hre
                  simp
                  omega
                rw [hl, prevAt_cons]
              rw [hpa]
              exact hlast hre
    next hnl =>
      cases h
      exact ⟨rfl, fun k hk => by simp at hk, fun k hk => by simp at hk,
             fun k hk => by simp at hk, rfl, fun hne => absurd rfl hne,
             fun _ => hnl⟩

/-- A minimum search whose start reading is already at or below the target
bound exits at once with no command issued, for any fuel. -/
theorem findMinLoop_done {σ : Type} (send : σ → ℚ → σ) (read : σ → ℚ × σ)
    (target : ℚ) (fuel : Nat) (cur : ℚ) (s : σ) (h : ¬ target < cur) :
    findMinLoop send read target fuel cur s = some (cur, s, [], []) := by
  cases fuel <;> simp only [findMinLoop] <;> rw [if_neg h]

/-- A maximum search whose start reading is already at or above the target
bound exits at once with no command issued, for any fuel. -/
theorem findMaxLoop_done {σ : Type} (send : σ → ℚ → σ) (read : σ → ℚ × σ)
    (target : ℚ) (fuel : Nat) (cur : ℚ) (s : σ) (h : ¬ cur < target) :
    findMaxLoop send read target fuel cur s = some (cur, s, [], []) := by
  cases fuel <;> simp only [findMaxLoop] <;> rw [if_neg h]

/-- One converging step of the minimum loop on the ideal plant. -/
theorem findMinLoop_perfect_stop (target : ℚ) (fuel : Nat) (cur s : ℚ)
    (hlt : target < cur) (hstop : |max (cur - 5) target - cur| < 1/2) :
    findMinLoop psend pread target (fuel + 1) cur s
      = some (max (cur - 5) target, max (cur - 5) target,
              [max (cur - 5) target], [max (cur - 5) target]) := by
  simp only [findMinLoop, psend, pread]
  rw [if_pos hlt, if_pos hstop]

/-- One non-converging step of the minimum loop on the ideal plant,
folded over a successful recursive run. -/
theorem findMinLoop_perfect_go (target : ℚ) (fuel : Nat) (cur s : ℚ)
    (r s2 : ℚ) (cmds reads : List ℚ)
    (hlt : target < cur) (hgo : ¬ |max (cur - 5) target - cur| < 1/2)
    (hrec : findMinLoop psend pread target fuel (max (cur - 5) target)
        (max (cur - 5) target) = some (r, s2, cmds, reads)) :
    findMinLoop psend pread target (fuel + 1) cur s
      = some (r, s2, max (cur - 5) target :: cmds,
              max (cur - 5) target :: reads) := by
  simp only [findMinLoop, psend, pread]
  rw [if_pos hlt, if_neg hgo, hrec]

/-- One converging step of the maximum loop on the ideal plant. -/
theorem findMaxLoop_perfect_stop (target : ℚ) (fuel : Nat) (cur s : ℚ)
    (hlt : cur < target) (hstop : |min (cur + 5) target - cur| < 1/2) :
    findMaxLoop psend pread target (fuel + 1) cur s
      = some (min (cur + 5) target, min (cur + 5) target,
              [min (cur + 5) target], [min (cur + 5) target]) := by
  simp only [findMaxLoop, psend, pread]
  rw [if_pos hlt, if_pos hstop]

/-- One non-converging step of the maximum loop on the ideal plant,
folded over a successful recursive run. -/
theorem findMaxLoop_perfect_go (target : ℚ) (fuel : Nat) (cur s : ℚ)
    (r s2 : ℚ) (cmds reads : List ℚ)
    (hlt : cur < target) (hgo : ¬ |min (cur + 5) target - cur| < 1/2)
    (hrec : findMaxLoop psend pread target fuel (min (cur + 5) target)
        (min (cur + 5) target) = some (r, s2, cmds, reads)) :
    findMaxLoop psend pread target (fuel + 1) cur s
      = some (r, s2, min (cur + 5) target :: cmds,
              min (cur + 5) target :: reads) := by
  simp only [findMaxLoop, psend, pread]
  rw [if_pos hlt, if_neg hgo, hrec]

/-- On the ideal plant the minimum search started above the bound with
enough fuel returns exactly the target bound, the bound itself is
commanded, and every reading equals its command. -/
theorem perfectMinLoop (target : ℚ) :
    ∀ (fuel : Nat) (cur : ℚ), target < cur → cur - target ≤ 5 * fuel →
      ∃ s' cmds reads,
        findMinLoop psend pread target fuel cur cur
            = some (target, s', cmds, reads) ∧ target ∈ cmds ∧ cmds = reads := by
  intro fuel
  induction fuel with
  | zero =>
    intro cur hlt hle
    exfalso
    simp at hle
    linarith
  | succ fuel ih =>
    intro cur hlt hle
    by_cases hsmall : cur - target < 1/2
    · have hmax : max (cur - 5) target = target := max_eq_right (by linarith)
      have hstop : |max (cur - 5) target - cur| < 1/2 := by
        rw [hmax, abs_sub_comm, abs_of_pos (sub_pos.mpr hlt)]
        exact hsmall
      refine ⟨target, [target], [target], ?_, List.mem_singleton.mpr rfl, rfl⟩
      rw [findMinLoop_perfect_stop target fuel cur cur hlt hstop, hmax]
    · by_cases hc5 : cur - 5 ≤ target
      · have hmax : max (cur - 5) target = target := max_eq_right hc5
        have hgo : ¬ |max (cur - 5) target - cur| < 1/2 := by
          rw [hmax, abs_sub_comm, abs_of_pos (sub_pos.mpr hlt)]
          exact hsmall
        have hrec : findMinLoop psend pread target fuel
            (max (cur - 5) target) (max (cur - 5) target)
            = some (target, target, [], []) := by
          rw [hmax]
          exact findMinLoop_done psend pread target fuel target target
            (lt_irrefl target)
        refine ⟨target, [target], [target], ?_, List.mem_singleton.mpr rfl, rfl⟩
        rw [findMinLoop_perfect_go target fuel cur cur target target [] []
          hlt hgo hrec, hmax]
      · have hlt2 : target < cur - 5 := lt_of_not_le hc5
        have hle2 : (cur - 5) - target ≤ 5 * fuel := by
          push_cast at hle ⊢
          linarith
        obtain ⟨s', cmds2, reads2, hrec, hmem, heqcr⟩ := ih (cur - 5) hlt2 hle2
        have hmax : max (cur - 5) target = cur - 5 := max_eq_left hlt2.le
        have hgo : ¬ |max (cur - 5) target - cur| < 1/2 := by
          rw [hmax, show cur - 5 - cur = -5 by ring, abs_neg]
          norm_num
        have hrec2 : findMinLoop psend pread target fuel
            (max (cur - 5) target) (max (cur - 5) target)
            = some (target, s', cmds2, reads2) := by
          rw [hmax]
          exact hrec
        refine ⟨s', (cur - 5) :: cmds2, (cur - 5) :: reads2, ?_,
          List.mem_cons_of_mem _ hmem, by rw [heqcr]⟩
        rw [findMinLoop_perfect_go target fuel cur cur target s' cmds2 reads2
          hlt hgo hrec2, hmax]

/-- On the ideal plant the maximum search started below the bound with
enough fuel returns exactly the target bound. -/
theorem perfectMaxLoop (target : ℚ) :
    ∀ (fuel : Nat) (cur : ℚ), cur < target → target - cur ≤ 5 * fuel →
      ∃ s' cmds reads,
        findMaxLoop psend pread target fuel cur cur
            = some (target, s', cmds, reads) ∧ target ∈ cmds ∧ cmds = reads := by
  intro fuel
  induction fuel with
  | zero =>
    intro cur hlt hle
    exfalso
    simp at hle
    linarith
  | succ fuel ih =>
    intro cur hlt hle
    by_cases hsmall : target - cur < 1/2
    · have hmin : min (cur + 5) target = target := min_eq_right (by linarith)
      have hstop : |min (cur + 5) target - cur| < 1/2 := by
        rw [hmin, abs_of_pos (sub_pos.mpr hlt)]
        exact hsmall
      refine ⟨target, [target], [target], ?_, List.mem_singleton.mpr rfl, rfl⟩
      rw [findMaxLoop_perfect_stop target fuel cur cur hlt hstop, hmin]
    · by_cases hc5 : target ≤ cur + 5
      · have hmin : min (cur + 5) target = target := min_eq_right hc5
        have hgo : ¬ |min (cur + 5) target - cur| < 1/2 := by
          rw [hmin, abs_of_pos (sub_pos.mpr hlt)]
          exact hsmall
        have hrec : findMaxLoop psend pread target fuel
            (min (cur + 5) target) (min (cur + 5) target)
            = some (target, target, [], []) := by
          rw [hmin]
          exact findMaxLoop_done psend pread target fuel target target
            (lt_irrefl target)
        refine ⟨target, [target], [target], ?_, List.mem_singleton.mpr rfl, rfl⟩
        rw [findMaxLoop_perfect_go target fuel cur cur target target [] []
          hlt hgo hrec, hmin]
      · have hlt2 : cur + 5 < target := lt_of_not_le hc5
        have hle2 : target - (cur + 5) ≤ 5 * fuel := by
          push_cast at hle ⊢
          linarith
        obtain ⟨s', cmds2, reads2, hrec, hmem, heqcr⟩ := ih (cur + 5) hlt2 hle2
        have hmin : min (cur + 5) target = cur + 5 := min_eq_left hlt2.le
        have hgo : ¬ |min (cur + 5) target - cur| < 1/2 := by
          rw [hmin, show cur + 5 - cur = 5 by ring]
          norm_num
        have hrec2 : findMaxLoop psend pread target fuel
            (min (cur + 5) target) (min (cur + 5) target)
            = some (target, s', cmds2, reads2) := by
          rw [hmin]
          exact hrec
        refine ⟨s', (cur + 5) :: cmds2, (cur + 5) :: reads2, ?_,
          List.mem_cons_of_mem _ hmem, by rw [heqcr]⟩
        rw [findMaxLoop_perfect_go target fuel cur cur target s' cmds2 reads2
          hlt hgo hrec2, hmin]

/-- C1: for every joint and direction, each commanded position is 5 degrees
closer to the target bound (nominal limit −20 for minimum, +20 for
maximum), clamped so it never passes the bound; the loop never continues
past a displacement below 0.5 degrees between consecutive readings, and it
returns the last observed position. -/
theorem C1_limit_search_trace :
    (∀ (σ : Type) (send : σ → ℚ → σ) (read : σ → ℚ × σ)
        (joint_number fuel : Nat) (s : σ) (r : ℚ) (s' : σ)
        (cmds reads : List ℚ),
      find_joint_min_position send read joint_number fuel s
          = some (r, s', cmds, reads) →
      minSearchSpec ((JOINT_LIMITS joint_number).1 - 20) (read s).1
        cmds reads r) ∧
    (∀ (σ : Type) (send : σ → ℚ → σ) (read : σ → ℚ × σ)
        (joint_number fuel : Nat) (s : σ) (r : ℚ) (s' : σ)
        (cmds reads : List ℚ),
      find_joint_max_position send read joint_number fuel s
          = some (r, s', cmds, reads) →
      maxSearchSpec ((JOINT_LIMITS joint_number).2 + 20) (read s).1
        cmds reads r) := by
  constructor
  · intro σ send read j fuel s r s' cmds reads h
    simp only [find_joint_min_position] at h
    exact findMinLoop_spec send read _ fuel _ _ r s' cmds reads h
  · intro σ send read j fuel s r s' cmds reads h
    simp only [find_joint_max_position] at h
    exact findMaxLoop_spec send read _ fuel _ _ r s' cmds reads h

/-- Witness for C1 on the ideal plant in both directions. -/
theorem C1_limit_search_trace_witness :
    minSearchSpec ((JOINT_LIMITS 1).1 - 20) (pread (-185)).1
      [-190] [-190] (-190) ∧
    maxSearchSpec ((JOINT_LIMITS 6).2 + 20) (pread 188).1
      [193, 195] [193, 195] 195 :=
  ⟨C1_limit_search_trace.1 ℚ psend pread 1 3 (-185) (-190) (-190)
      [-190] [-190] (by with_unfolding_all rfl),
   C1_limit_search_trace.2 ℚ psend pread 6 3 188 195 195
      [193, 195] [193, 195] (by with_unfolding_all rfl)⟩

/-- C3: for every joint and direction, under a bus whose position always
moves by exactly the commanded step, a search started inside the travel
with fuel covering the full travel terminates by reaching the target bound
(the bound itself is commanded) and returns that bound rather than an
error. -/
theorem C3_full_travel :
    (∀ (joint_number fuel : Nat) (s : ℚ),
      (JOINT_LIMITS joint_number).1 - 20 < s →
      s - ((JOINT_LIMITS joint_number).1 - 20) ≤ 5 * (fuel : ℚ) →
      ∃ s' cmds reads,
        find_joint_min_position psend pread joint_number fuel s
            = some ((JOINT_LIMITS joint_number).1 - 20, s', cmds, reads) ∧
        (JOINT_LIMITS joint_number).1 - 20 ∈ cmds ∧ cmds = reads) ∧
    (∀ (joint_number fuel : Nat) (s : ℚ),
      s < (JOINT_LIMITS joint_number).2 + 20 →
      (JOINT_LIMITS joint_number).2 + 20 - s ≤ 5 * (fuel : ℚ) →
      ∃ s' cmds reads,
        find_joint_max_position psend pread joint_number fuel s
            = some ((JOINT_LIMITS joint_number).2 + 20, s', cmds, reads) ∧
        (JOINT_LIMITS joint_number).2 + 20 ∈ cmds ∧ cmds = reads) := by
  constructor
  · intro j fuel s hlt hle
    simp only [find_joint_min_position, pread]
    exact perfectMinLoop _ fuel s hlt hle
  · intro j fuel s hlt hle
    simp only [find_joint_max_position, pread]
    exact perfectMaxLoop _ fuel s hlt hle

/-- Witness for C3 in both directions at concrete start positions. -/
theorem C3_full_travel_witness :
    (∃ s' cmds reads,
      find_joint_min_position psend pread 1 1 (-185)
          = some ((JOINT_LIMITS 1).1 - 20, s', cmds, reads) ∧
      (JOINT_LIMITS 1).1 - 20 ∈ cmds ∧ cmds = reads) ∧
    (∃ s' cmds reads,
      find_joint_max_position psend pread 1 1 187
          = some ((JOINT_LIMITS 1).2 + 20, s', cmds, reads) ∧
      (JOINT_LIMITS 1).2 + 20 ∈ cmds ∧ cmds = reads) :=
  ⟨C3_full_travel.1 1 1 (-185)
      (of_decide_eq_true (by with_unfolding_all rfl))
      (of_decide_eq_true (by with_unfolding_all rfl)),
   C3_full_travel.2 1 1 187
      (of_decide_eq_true (by with_unfolding_all rfl))
      (of_decide_eq_true (by with_unfolding_all rfl))⟩

/-- C8: for every joint and direction, a search whose live start reading
already exceeds the target bound (below it for minimum, above it for
maximum) terminates immediately, issues no command, and returns that
reading. -/
theorem C8_already_past_bound :
    (∀ (σ : Type) (send : σ → ℚ → σ) (read : σ → ℚ × σ)
        (joint_number fuel : Nat) (s : σ),
      (read s).1 < (JOINT_LIMITS joint_number).1 - 20 →
      find_joint_min_position send read joint_number fuel s
          = some ((read s).1, (read s).2, [], [])) ∧
    (∀ (σ : Type) (send : σ → ℚ → σ) (read : σ → ℚ × σ)
        (joint_number fuel : Nat) (s : σ),
      (JOINT_LIMITS joint_number).2 + 20 < (read s).1 →
      find_joint_max_position send read joint_number fuel s
          = some ((read s).1, (read s).2, [], [])) := by
  constructor
  · intro σ send read j fuel s h
    simp only [find_joint_min_position]
    exact findMinLoop_done send read _ fuel _ _ (lt_asymm h)
  · intro σ send read j fuel s h
    simp only [find_joint_max_position]
    exact findMaxLoop_done send read _ fuel _ _ (lt_asymm h)

/-- Witness for C8 in both directions at start readings past the bounds. -/
theorem C8_already_past_bound_witness :
    find_joint_min_position psend pread 1 5 (-200)
        = some ((pread (-200)).1, (pread (-200)).2, [], []) ∧
    find_joint_max_position psend pread 1 5 200
        = some ((pread 200).1, (pread 200).2, [], []) :=
  ⟨C8_already_past_bound.1 ℚ psend pread 1 5 (-200)
      (of_decide_eq_true (by with_unfolding_all rfl)),
   C8_already_past_bound.2 ℚ psend pread 1 5 200
      (of_decide_eq_true (by with_unfolding_all rfl))⟩

/-- The per-joint auto-calibration entry always records
center = (min + max) / 2 and range = max − min. -/
theorem autoCalibJoint_fields {σ : Type} (P : Plant σ) (id fuel : Nat) (s : σ)
    (e : AutoEntry) (s' : σ)
    (h : autoCalibJoint P id fuel s = some (e, s')) :
    e.center_pos = (e.min_pos + e.max_pos) / 2 ∧
    e.range = e.max_pos - e.min_pos := by
  simp only [autoCalibJoint] at h
  split at h
  · cases h
  · split at h
    · cases h
    · cases h
      exact ⟨rfl, rfl⟩

/-- Every entry produced by the auto-calibration joint loop records
center = (min + max) / 2 and range = max − min. -/
theorem autoCalibLoop_fields {σ : Type} (P : Plant σ) (fuel : Nat) :
    ∀ (motors : List (String × Nat)) (s : σ)
      (rec : List (String × AutoEntry)) (s' : σ),
      autoCalibLoop P fuel motors s = some (rec, s') →
      ∀ p ∈ rec, p.2.center_pos = (p.2.min_pos + p.2.max_pos) / 2 ∧
        p.2.range = p.2.max_pos - p.2.min_pos := by
  intro motors
  induction motors with
  | nil =>
    intro s rec s' h p hp
    cases h
    simp at hp
  | cons m rest ih =>
    intro s rec s' h p hp
    obtain ⟨name, id⟩ := m
    simp only [autoCalibLoop] at h
    split at h
    · exact ih s rec s' h p hp
    · split at h
      · cases h
      · rename_i entry s1 hj
        split at h
        · cases h
        · rename_i record s2 hl
          cases h
          rcases List.mem_cons.mp hp with heq | hp2
          · subst heq
            exact autoCalibJoint_fields P id fuel s entry s1 hj
          · exact ih s1 record s' hl p hp2

/-- C6 (amended): for every non-gripper entry of the auto-calibration
record, center = (min + max) / 2 and range = max − min hold
unconditionally, and the center lies in [min, max] whenever
min ≤ max; the code does not guarantee min ≤ max for an arbitrary bus. -/
theorem C6_center_range (σ : Type) (P : Plant σ)
    (motors : List (String × Nat)) (fuel : Nat) (s : σ)
    (rt at' : String) (rec : List (String × AutoEntry)) (g : Bool) (s' : σ)
    (h : run_arm_auto_calibration P motors fuel s rt at' = some ((rec, g), s')) :
    ∀ p ∈ rec,
      p.2.center_pos = (p.2.min_pos + p.2.max_pos) / 2 ∧
      p.2.range = p.2.max_pos - p.2.min_pos ∧
      (p.2.min_pos ≤ p.2.max_pos →
        p.2.min_pos ≤ p.2.center_pos ∧ p.2.center_pos ≤ p.2.max_pos) := by
  intro p hp
  simp only [run_arm_auto_calibration] at h
  split at h
  · split at h
    · cases h
    · rename_i record s2 hl
      cases h
      obtain ⟨h1, h2⟩ := autoCalibLoop_fields P fuel motors _ _ _ hl p hp
      refine ⟨h1, h2, fun hle => ?_⟩
      constructor
      · rw [h1]
        linarith
      · rw [h1]
        linarith
  · cases h

/-- C6 counterexample: an adversarial plant makes the minimum search
converge at +100 and the subsequent maximum search converge at −100, so
the produced record has min_pos = 100 > max_pos = −100. -/
theorem C6_min_le_max_counterexample :
    run_arm_auto_calibration advPlant [("joint1", 1)] 10 0 "mycobot" "280"
      = some (([("joint1",
          { initial_pos := 0, min_pos := 100, max_pos := -100,
            center_pos := 0, range := -200 })], false), 5) ∧
    ¬ ((100 : ℚ) ≤ -100) :=
  ⟨by with_unfolding_all rfl, of_decide_eq_true (by with_unfolding_all rfl)⟩

/-- Witness for C6's amended theorem at the adversarial-plant record. -/
theorem C6_center_range_witness :
    (AutoEntry.mk 0 100 (-100) 0 (-200)).center_pos
        = ((AutoEntry.mk 0 100 (-100) 0 (-200)).min_pos
            + (AutoEntry.mk 0 100 (-100) 0 (-200)).max_pos) / 2 ∧
    (AutoEntry.mk 0 100 (-100) 0 (-200)).range
        = (AutoEntry.mk 0 100 (-100) 0 (-200)).max_pos
            - (AutoEntry.mk 0 100 (-100) 0 (-200)).min_pos ∧
    ((AutoEntry.mk 0 100 (-100) 0 (-200)).min_pos
        ≤ (AutoEntry.mk 0 100 (-100) 0 (-200)).max_pos →
      (AutoEntry.mk 0 100 (-100) 0 (-200)).min_pos
          ≤ (AutoEntry.mk 0 100 (-100) 0 (-200)).center_pos ∧
      (AutoEntry.mk 0 100 (-100) 0 (-200)).center_pos
          ≤ (AutoEntry.mk 0 100 (-100) 0 (-200)).max_pos) :=
  C6_center_range Nat advPlant [("joint1", 1)] 10 0 "mycobot" "280"
    [("joint1", AutoEntry.mk 0 100 (-100) 0 (-200))] false 5
    (by with_unfolding_all rfl)
    ("joint1", AutoEntry.mk 0 100 (-100) 0 (-200))
    (List.mem_singleton.mpr rfl)
